import Mathlib

/-!
Verification of core behaviors of the Meadow Math static site
(meadowmath.github.io). The JavaScript sources are shallowly embedded:
JSON translation bundles become an inductive `Json` type, the i18n
singleton's pure state becomes `I18nState`, DOM/network side effects
become explicit effect lists, and the Pre-K `ActivityBase` round engine
becomes a record with pure transition functions.
-/

/-- JSON values, as produced by `JSON.parse` on the translation bundles and
activity manifests. Object fields are kept in insertion order, as JS does. -/
inductive Json where
  | null : Json
  | bool (b : Bool) : Json
  | num (n : Int) : Json
  | str (s : String) : Json
  | arr (elems : List Json) : Json
  | obj (fields : List (String × Json)) : Json
deriving Repr, Inhabited

mutual

/-- Structural equality test for `Json` (needed because `deriving DecidableEq`
does not handle the nesting through `List`). -/
def Json.beq : Json → Json → Bool
  | .null, .null => true
  | .bool a, .bool b => a == b
  | .num a, .num b => a == b
  | .str a, .str b => a == b
  | .arr a, .arr b => Json.beqList a b
  | .obj a, .obj b => Json.beqFields a b
  | _, _ => false

def Json.beqList : List Json → List Json → Bool
  | [], [] => true
  | a :: as, b :: bs => Json.beq a b && Json.beqList as bs
  | _, _ => false

def Json.beqFields : List (String × Json) → List (String × Json) → Bool
  | [], [] => true
  | (k, a) :: as, (l, b) :: bs => k == l && Json.beq a b && Json.beqFields as bs
  | _, _ => false

end

mutual

theorem Json.beq_iff : ∀ a b : Json, Json.beq a b = true ↔ a = b
  | .null, b => by cases b <;> simp [Json.beq]
  | .bool x, b => by cases b <;> simp [Json.beq]
  | .num x, b => by cases b <;> simp [Json.beq]
  | .str x, b => by cases b <;> simp [Json.beq]
  | .arr xs, b => by
      cases b
      case arr ys => simpa [Json.beq] using Json.beqList_iff xs ys
      all_goals simp [Json.beq]
  | .obj fs, b => by
      cases b
      case obj gs => simpa [Json.beq] using Json.beqFields_iff fs gs
      all_goals simp [Json.beq]

theorem Json.beqList_iff : ∀ as bs : List Json, Json.beqList as bs = true ↔ as = bs
  | [], bs => by cases bs <;> simp [Json.beqList]
  | a :: as, bs => by
      cases bs with
      | nil => simp [Json.beqList]
      | cons b bs =>
          simp [Json.beqList, Bool.and_eq_true]
          rw [Json.beq_iff a b, Json.beqList_iff as bs]

theorem Json.beqFields_iff :
    ∀ as bs : List (String × Json), Json.beqFields as bs = true ↔ as = bs
  | [], bs => by cases bs <;> simp [Json.beqFields]
  | (k, a) :: as, bs => by
      cases bs with
      | nil => simp [Json.beqFields]
      | cons kb bs =>
          obtain ⟨l, b⟩ := kb
          simp [Json.beqFields, Bool.and_eq_true]
          rw [Json.beq_iff a b, Json.beqFields_iff as bs]

end

instance : DecidableEq Json := fun a b =>
  decidable_of_iff (Json.beq a b = true) (Json.beq_iff a b)

/-- Lookup of a property on a JS object literal given as an ordered field list
(first binding wins; `JSON.parse` keeps one binding per key). -/
def objLookup : List (String × Json) → String → Option Json
  | [], _ => none
  | (k, v) :: fs, key => if k = key then some v else objLookup fs key

/-- Setting a property on a JS object: replaces an existing binding in place,
otherwise appends (matching JS property insertion order). -/
def objSet : List (String × Json) → String → Json → List (String × Json)
  | [], key, v => [(key, v)]
  | (k, w) :: fs, key, v =>
      if k = key then (k, v) :: fs else (k, w) :: objSet fs key v

/-- JS truthiness of a JSON value (`NaN` does not arise for our values). -/
def Json.jsTruthy : Json → Bool
  | .null => false
  | .bool b => b
  | .num n => n != 0
  | .str s => s ≠ ""
  | .arr _ => true
  | .obj _ => true

/-- `typeof v === 'object'` for a JSON value (true for objects, arrays, null). -/
def Json.typeofIsObject : Json → Bool
  | .null => true
  | .arr _ => true
  | .obj _ => true
  | _ => false

/-- Decimal value of a digit string. -/
def digitsToNat (cs : List Char) : Nat :=
  cs.foldl (fun acc c => 10 * acc + (c.toNat - '0'.toNat)) 0

/-- The canonical array-index reading of a string, as used by the JS `in`
operator on arrays: nonempty, all digits, no leading zero (except `"0"`). -/
def canonicalIndex? (s : String) : Option Nat :=
  match s.data with
  | [] => none
  | ['0'] => some 0
  | c :: cs =>
      if c ≠ '0' ∧ (c :: cs).all Char.isDigit then some (digitsToNat (c :: cs))
      else none

/-- Own-property membership on a parsed JSON value: key membership for
objects; for arrays the canonical index strings and `length`. This is the
`in` operator restricted to own properties — the full operator, which also
sees inherited prototype members, is `JsValue.hasProp` below. -/
def Json.hasOwnProp : Json → String → Bool
  | .obj fs, k => (objLookup fs k).isSome
  | .arr xs, k =>
      k = "length" ||
        (match canonicalIndex? k with
         | some i => decide (i < xs.length)
         | none => false)
  | _, _ => false

/-- Own-property read on a parsed JSON value; only consulted under a
`hasOwnProp` guard. -/
def Json.getOwnProp : Json → String → Json
  | .obj fs, k => (objLookup fs k).getD .null
  | .arr xs, k =>
      if k = "length" then .num xs.length
      else
        match canonicalIndex? k with
        | some i => xs.getD i .null
        | none => .null
  | _, _ => .null

/-- Whether a JSON value is a string (`typeof value === 'string'`). -/
def Json.isStr : Json → Bool
  | .str _ => true
  | _ => false

/-- Truthiness of a possibly-undefined JS value (`undefined` is falsy). -/
def jsTruthyOpt : Option Json → Bool
  | none => false
  | some v => v.jsTruthy

/-- String-keyed members of `Object.prototype`, which every `JSON.parse`
object (and, through `Array.prototype`, every array) inherits; `__proto__` is
the Annex B accessor, the rest are functions. -/
def objectProtoMembers : List String :=
  ["constructor", "hasOwnProperty", "isPrototypeOf", "propertyIsEnumerable",
   "toLocaleString", "toString", "valueOf", "__defineGetter__",
   "__defineSetter__", "__lookupGetter__", "__lookupSetter__", "__proto__"]

/-- String-keyed function members of `Array.prototype` beyond those it shares
with `Object.prototype` (ECMAScript 2023; `length` and `constructor` are
handled separately). -/
def arrayProtoMembers : List String :=
  ["at", "concat", "copyWithin", "entries", "every", "fill", "filter",
   "find", "findIndex", "findLast", "findLastIndex", "flat", "flatMap",
   "forEach", "includes", "indexOf", "join", "keys", "lastIndexOf", "map",
   "pop", "push", "reduce", "reduceRight", "reverse", "shift", "slice",
   "some", "sort", "splice", "toReversed", "toSorted", "toSpliced",
   "unshift", "values", "with"]

/-- The runtime values the `i18n.t` loop variable can hold: parsed JSON data,
a built-in function (all of which `t` treats identically: truthy, `typeof`
`'function'`, never a string), or one of the two prototype objects reachable
through the `__proto__` accessor. -/
inductive JsValue where
  | data (j : Json)
  | jsFun
  | protoObject
  | protoArray
deriving Repr, DecidableEq

def JsValue.jsTruthy : JsValue → Bool
  | .data j => j.jsTruthy
  | _ => true

/-- `typeof v === 'object'` (functions have `typeof` `'function'`). -/
def JsValue.typeofIsObject : JsValue → Bool
  | .data j => j.typeofIsObject
  | .jsFun => false
  | .protoObject => true
  | .protoArray => true

def JsValue.isStr : JsValue → Bool
  | .data j => j.isStr
  | _ => false

/-- The JS `in` operator, including the prototype chain: a parsed object has
its own keys plus the `Object.prototype` members; a parsed array additionally
has the `Array.prototype` members; the prototype objects carry their own
member sets (`Array.prototype` is itself an empty array). -/
def JsValue.hasProp : JsValue → String → Bool
  | .data (.obj fs), k =>
      (objLookup fs k).isSome || objectProtoMembers.contains k
  | .data (.arr xs), k =>
      (Json.arr xs).hasOwnProp k || arrayProtoMembers.contains k ||
        objectProtoMembers.contains k
  | .data _, _ => false
  | .jsFun, _ => false
  | .protoObject, k => objectProtoMembers.contains k
  | .protoArray, k =>
      k = "length" || arrayProtoMembers.contains k ||
        objectProtoMembers.contains k

/-- Property read including the prototype chain (only consulted under a
`hasProp` guard): an own property shadows the chain; `__proto__` yields the
receiver's prototype (`null` for `Object.prototype` itself); every other
inherited member is a built-in function. -/
def JsValue.getProp : JsValue → String → JsValue
  | .data (.obj fs), k =>
      match objLookup fs k with
      | some v => .data v
      | none => if k = "__proto__" then .protoObject else .jsFun
  | .data (.arr xs), k =>
      if (Json.arr xs).hasOwnProp k then .data ((Json.arr xs).getOwnProp k)
      else if k = "__proto__" then .protoArray
      else .jsFun
  | .data _, _ => .data .null
  | .jsFun, _ => .data .null
  | .protoObject, k => if k = "__proto__" then .data .null else .jsFun
  | .protoArray, k =>
      if k = "length" then .data (.num 0)
      else if k = "__proto__" then .protoObject
      else .jsFun

/-- `String.prototype.split` with a single-character separator: splits at every
occurrence, keeping empty segments; the empty string yields `[""]`. -/
def splitCharAux (sep : Char) : List Char → List Char → List (List Char)
  | [], acc => [acc.reverse]
  | c :: cs, acc =>
      if c = sep then acc.reverse :: splitCharAux sep cs []
      else splitCharAux sep cs (c :: acc)

def splitChar (sep : Char) (s : String) : List String :=
  (splitCharAux sep s.data []).map (fun cs => ⟨cs⟩)

theorem splitCharAux_ne_nil (sep : Char) :
    ∀ cs acc, splitCharAux sep cs acc ≠ [] := by
  intro cs
  induction cs with
  | nil => intro acc; simp [splitCharAux]
  | cons c cs ih =>
      intro acc
      by_cases h : c = sep
      · simp [splitCharAux, h]
      · simp only [splitCharAux, if_neg h]
        apply ih

theorem splitChar_ne_nil (sep : Char) (s : String) : splitChar sep s ≠ [] := by
  simp [splitChar]
  exact splitCharAux_ne_nil sep s.data []

/-- `key.split('.')` as used by `i18n.t`. -/
def splitDot (key : String) : List String := splitChar '.' key

theorem splitDot_ne_nil (key : String) : splitDot key ≠ [] :=
  splitChar_ne_nil '.' key

/-!
## TranslationCatalog (`src/js/i18n.js`)

The i18n singleton's pure state. `translations` maps a language code to its
merged translation tree (absent key = JS `undefined`), as does the bundle
cache. `currentSection` records the result of `detectCurrentSection()`, which
only reads `window.location`.
-/

/-- One language's entry of `i18n.cache`: the common bundle plus per-section
bundles. -/
structure LangCache where
  common : Option Json
  sections : List (String × Json)
deriving Repr, DecidableEq

structure I18nState where
  currentLang : String
  fallbackLang : String
  supportedLanguages : List String
  translations : List (String × Json)
  cache : List (String × LangCache)
  currentSection : Option String
deriving Repr, DecidableEq

/-- `this.translations[lang]` (undefined when the language was never loaded). -/
def I18nState.langTree (st : I18nState) (lang : String) : Option Json :=
  objLookup st.translations lang

/-- `this.translations[lang]` as the runtime value the `t` loop starts from. -/
def I18nState.langValue (st : I18nState) (lang : String) : Option JsValue :=
  (objLookup st.translations lang).map JsValue.data

/-- The loop condition of `i18n.t`:
`value && typeof value === 'object' && k in value`, with the full
prototype-aware `in` operator. -/
def stepCond : Option JsValue → String → Bool
  | some v, k => v.jsTruthy && v.typeofIsObject && v.hasProp k
  | none, _ => false

/-- The segment-resolution loop of `i18n.t` (`for (const k of keys)`), shared
verbatim by the fallback's inner loop: walks the key segments; `none` means the
else-branch fired at some segment (a failed `in` check). For the nonempty
paths produced by `split('.')` this is exact. -/
def navigate : Option JsValue → List String → Option JsValue
  | v, [] => v
  | v, k :: ks =>
      if stepCond v k then
        navigate (some ((v.getD (.data .null)).getProp k)) ks
      else none

/-- The final line of `i18n.t`:
`return typeof value === 'string' ? value : key`. -/
def stringOrKey : JsValue → String → String
  | .data (.str s), _ => s
  | _, key => key

/-- `i18n.t(key)` (src/js/i18n.js lines 193-218): resolve the dot-path in the
active language's tree; on a failed `in` check, re-resolve the full path in
the fallback language's tree (guarded by `if (!value) return key`); finally
coerce with the `typeof value === 'string'` check. -/
def I18nState.t (st : I18nState) (key : String) : String :=
  let ks := splitDot key
  match navigate (st.langValue st.currentLang) ks with
  | some v => stringOrKey v key
  | none =>
      let w := st.langTree st.fallbackLang
      if jsTruthyOpt w then
        match navigate (st.langValue st.fallbackLang) ks with
        | some v => stringOrKey v key
        | none => key
      else key

/-- The composition `t` actually implements, over its runtime semantics:
resolve with the prototype-aware `in`; restart the full path against the
fallback only when that check fails; echo the key when both attempts fail or
the resolved value is not a string. -/
def tRuntimeModel (active fallback : Option JsValue) (key : String) : String :=
  let ks := splitDot key
  match navigate active ks with
  | some v => stringOrKey v key
  | none =>
      match navigate fallback ks with
      | some v => stringOrKey v key
      | none => key

/-- Segment resolution as the spec describes it, over the data tree itself:
a segment is present exactly when the tree has it as an own property. -/
def navigateOwn : Option Json → List String → Option Json
  | v, [] => v
  | v, k :: ks =>
      match v with
      | some j =>
          if j.jsTruthy && j.typeofIsObject && j.hasOwnProp k then
            navigateOwn (some (j.getOwnProp k)) ks
          else none
      | none => none

/-- The string a resolved tree value contributes (`key` when not a leaf). -/
def dataStringOrKey : Json → String → String
  | .str s, _ => s
  | _, key => key

/-- Modelled from the spec's words: resolve the dot path segment by segment
against the active tree; if any segment is missing from that tree restart the
full path against the fallback tree; return the key itself when resolution
fails in both trees (or when the resolved value is not a string). -/
def tSpecModel (active fallback : Option Json) (key : String) : String :=
  let ks := splitDot key
  match navigateOwn active ks with
  | some v => dataStringOrKey v key
  | none =>
      match navigateOwn fallback ks with
      | some v => dataStringOrKey v key
      | none => key

/-- The property names defined on the `i18n` object literal
(src/js/i18n.js lines 22-366). Notably there is no `getRaw` member. -/
def i18nObjectKeys : List String :=
  ["currentLang", "translations", "fallbackLang", "supportedLanguages",
   "sections", "cache", "isFileProtocol", "getBasePath", "init",
   "detectCurrentSection", "loadCommon", "loadSection", "t",
   "applyTranslations", "setupLanguageButtons", "setLanguage",
   "preloadSection", "getTranslations", "hasTranslation"]

/-- Modelled from the spec: the `getRaw(key)` operation the spec ascribes to
the TranslationCatalog, which is absent from the `i18n` object in
src/js/i18n.js — same resolution path as `t` (active tree first, restarting
the full path against the fallback tree on a missing segment) but returning
the raw resolved value (object, array, or string) instead of coercing to a
string. -/
def getRawSpecModel (active fallback : Option JsValue) (key : String) :
    Option JsValue :=
  let ks := splitDot key
  match navigate active ks with
  | some v => some v
  | none => navigate fallback ks

/-- The expression `window.i18n?.getRaw?.(key)` in
`PreKPage.renderLearnMoreContent` (src/prek/prek.js line 267): an optional
call of the `getRaw` member. Were the member defined on the object its
spec-described behaviour would apply; since `"getRaw" ∉ i18nObjectKeys`, the
member access yields `undefined` and the optional call evaluates to
`undefined` (`none`). -/
def prekCardContent (st : I18nState) (key : String) : Option JsValue :=
  if "getRaw" ∈ i18nObjectKeys then
    getRawSpecModel (st.langValue st.currentLang) (st.langValue st.fallbackLang) key
  else none

/-- Generic association-list lookup (JS object property read). -/
def assocLookup {α : Type} : List (String × α) → String → Option α
  | [], _ => none
  | (k, v) :: fs, key => if k = key then some v else assocLookup fs key

/-- Generic association-list update (JS object property write). -/
def assocSet {α : Type} : List (String × α) → String → α → List (String × α)
  | [], key, v => [(key, v)]
  | (k, w) :: fs, key, v =>
      if k = key then (k, v) :: fs else (k, w) :: assocSet fs key v

/-- Externally visible side effects of the i18n loading functions. -/
inductive Effect where
  | warnUnsupported (lang : String)
  | persistLang (lang : String)
  | setDocLang (lang : String)
  | fetchCommon (lang : String)
  | warnCommonFailed (lang : String)
  | fetchSection (lang sec : String)
  | warnSectionFailed (lang sec : String)
  | applyTranslations
  | languageChanged (lang : String)
deriving Repr, DecidableEq

/-- The network, as seen by `loadCommon`/`loadSection`: the parsed JSON bundle
a fetch would produce, or `none` for any failure (non-2xx status, bad JSON). -/
structure FetchEnv where
  common : String → Option Json
  sectionBundle : String → String → Option Json

/-- `this.cache[lang]`; the object literal initialises entries for every
supported language, so the default is only a modelling totalisation. -/
def I18nState.cacheFor (st : I18nState) (lang : String) : LangCache :=
  (assocLookup st.cache lang).getD ⟨none, []⟩

/-- `i18n.loadCommon(lang)` (src/js/i18n.js lines 130-154). On a cache hit the
bundle is not re-fetched (`this.translations[lang] = {...this.cache[lang].common}`,
modelled as the cached value itself). On a failed fetch the language's tree is
initialised to `{}` only if it is still falsy. -/
def loadCommon (st : I18nState) (env : FetchEnv) (lang : String) :
    I18nState × List Effect :=
  match (st.cacheFor lang).common with
  | some data =>
      ({ st with translations := objSet st.translations lang data }, [])
  | none =>
      match env.common lang with
      | some data =>
          ({ st with
              cache := assocSet st.cache lang
                { st.cacheFor lang with common := some data },
              translations := objSet st.translations lang data },
           [.fetchCommon lang])
      | none =>
          (if jsTruthyOpt (objLookup st.translations lang) then st
           else { st with translations := objSet st.translations lang (Json.obj []) },
           [.fetchCommon lang, .warnCommonFailed lang])

/-- `this.translations[lang] = { ...this.translations[lang], section: data }`;
spreading `undefined` (or a valueless non-object) contributes no fields. -/
def mergeSection (translations : List (String × Json)) (lang : String)
    (data : Json) : List (String × Json) :=
  let base :=
    match objLookup translations lang with
    | some (.obj fs) => fs
    | _ => []
  objSet translations lang (Json.obj (objSet base "section" data))

/-- `i18n.loadSection(lang, section)` (src/js/i18n.js lines 159-188). -/
def loadSection (st : I18nState) (env : FetchEnv) (lang sec : String) :
    I18nState × List Effect :=
  match assocLookup (st.cacheFor lang).sections sec with
  | some data =>
      ({ st with translations := mergeSection st.translations lang data }, [])
  | none =>
      match env.sectionBundle lang sec with
      | some data =>
          ({ st with
              cache := assocSet st.cache lang
                { st.cacheFor lang with
                    sections := assocSet (st.cacheFor lang).sections sec data },
              translations := mergeSection st.translations lang data },
           [.fetchSection lang sec])
      | none => (st, [.fetchSection lang sec, .warnSectionFailed lang sec])

/-- `i18n.setLanguage(lang)` (src/js/i18n.js lines 310-339). Only an
unsupported language returns early; there is no already-active short-circuit
here (the `lang === this.currentLang` guard lives in the button click handler
set up by `setupLanguageButtons`, not in `setLanguage`). `st.currentSection`
is the result of `detectCurrentSection()`, which only reads the page URL. -/
def setLanguage (st : I18nState) (env : FetchEnv) (lang : String) :
    I18nState × List Effect :=
  if lang ∈ st.supportedLanguages then
    let st1 := { st with currentLang := lang }
    let r2 := loadCommon st1 env lang
    let r3 :=
      match st.currentSection with
      | some sec => loadSection r2.1 env lang sec
      | none => (r2.1, [])
    (r3.1,
      [.persistLang lang, .setDocLang lang] ++ r2.2 ++ r3.2 ++
        [.applyTranslations, .languageChanged lang])
  else (st, [.warnUnsupported lang])

/-!
## ActivityRoundEngine, Pre-K variant (`ActivityBase` in src/unnamed/part_001)

State and pure transitions of the Pre-K activity base class. DOM writes and
the auto-advance timer are dropped; the counter/flag updates are verbatim.
-/

structure PreKActivityState where
  maxRounds : Nat
  round : Nat
  correctCount : Nat
  wrongCount : Nat
  isComplete : Bool
deriving Repr, DecidableEq

/-- The Pre-K `ActivityBase` constructor: `this.maxRounds = config.maxRounds || 5`
(so a falsy `0` also yields 5), `round = 1`, zeroed counters. -/
def mkPreKActivity (cfgMaxRounds : Option Nat) : PreKActivityState :=
  { maxRounds :=
      match cfgMaxRounds with
      | some n => if n = 0 then 5 else n
      | none => 5,
    round := 1, correctCount := 0, wrongCount := 0, isComplete := false }

/-- `recordCorrect` (src/unnamed/part_001 lines 127-143), counter part:
increments `correctCount` unconditionally and sets `isComplete`; no flag is
consulted before incrementing. -/
def recordCorrect (s : PreKActivityState) : PreKActivityState :=
  { s with correctCount := s.correctCount + 1, isComplete := true }

/-- `recordWrong` (src/unnamed/part_001 lines 149-155), counter part:
increments `wrongCount` unconditionally. -/
def recordWrong (s : PreKActivityState) : PreKActivityState :=
  { s with wrongCount := s.wrongCount + 1 }

/-- `nextRound` (src/unnamed/part_001 lines 222-226). -/
def nextRound (s : PreKActivityState) : PreKActivityState :=
  { s with round := s.round + 1, isComplete := false }

/-- The deferred body of `recordCorrect`'s auto-advance:
`if (this.round < this.maxRounds) nextRound() else showStats()` —
`showStats` leaves the round state untouched. -/
def autoAdvance (s : PreKActivityState) : PreKActivityState :=
  if s.round < s.maxRounds then nextRound s else s

/-- Correct usage of the engine: each round is reported exactly once (`true`
for a correct answer, `false` for a wrong one) and the host then advances to
the next round. -/
def playRounds (bs : List Bool) (s : PreKActivityState) : PreKActivityState :=
  bs.foldl (fun s b => nextRound (if b then recordCorrect s else recordWrong s)) s

/-- The class string of one progress cell in the Pre-K `renderProgress`
(src/unnamed/part_001 lines 76-90): `completed` for `i < this.round`,
`current` for `i === this.round`, plain otherwise. The answered state of the
current round (`isComplete`) is not consulted. -/
def progressCellClass (s : PreKActivityState) (i : Nat) : String :=
  "progress-dot" ++
    (if i < s.round then " completed"
     else if i = s.round then " current"
     else "")

/-- The cells rendered by the Pre-K `renderProgress` loop
(`for (let i = 1; i <= this.maxRounds; i++)`), as their class strings. -/
def renderProgressCells (s : PreKActivityState) : List String :=
  (List.range s.maxRounds).map (fun j => progressCellClass s (j + 1))

/-- The HTML string `renderProgress` assigns to `this.progress.innerHTML`. -/
def renderProgressHtml (s : PreKActivityState) : String :=
  String.join ((renderProgressCells s).map
    (fun cn => "<div class=\"" ++ cn ++ "\"></div>"))

/-- Modelled from the claim's wording (for refutation): a cell is `completed`
iff its index is below the current round or equals it with the round already
answered, and `current` iff it equals the current round still unanswered. -/
def claimProgressCellClass (s : PreKActivityState) (i : Nat) : String :=
  "progress-dot" ++
    (if i < s.round ∨ (i = s.round ∧ s.isComplete) then " completed"
     else if i = s.round ∧ ¬s.isComplete then " current"
     else "")

def claimProgressCells (s : PreKActivityState) : List String :=
  (List.range s.maxRounds).map (fun j => claimProgressCellClass s (j + 1))

/-- The tier chosen by the Pre-K `showStats`
(src/unnamed/part_001 lines 160-187). -/
inductive StatsTier where
  | top
  | mid
  | low
deriving Repr, DecidableEq

/-- The branch selector of `showStats`: `percent = correctCount / maxRounds`
(exact division, modelled in `ℚ`), top tier iff `percent >= 0.8`, mid tier
iff `0.6 <= percent < 0.8`, low tier otherwise. -/
def statsTierOf (correct maxRounds : Nat) : StatsTier :=
  let percent : ℚ := (correct : ℚ) / (maxRounds : ℚ)
  if percent ≥ 8/10 then .top
  else if percent ≥ 6/10 then .mid
  else .low

/-- The icon `showStats` writes for each tier. -/
def statsTierIcon : StatsTier → String
  | .top => "🌟"
  | .mid => "🎉"
  | .low => "👍"

/-- The message level `showStats` passes to `getStatsMessage` per tier. -/
def statsTierLevel : StatsTier → String
  | .top => "excellent"
  | .mid => "good"
  | .low => "tryAgain"

/-- `getStatsMessage(level)` (src/unnamed/part_001 lines 193-200):
`messages[level] || messages.tryAgain`. -/
def getStatsMessage (level : String) : String :=
  let messages : List (String × String) :=
    [("excellent", "Amazing! You did great!"),
     ("good", "Great job!"),
     ("tryAgain", "Good effort! Try again!")]
  match assocLookup messages level with
  | some m => if m = "" then "Good effort! Try again!" else m
  | none => "Good effort! Try again!"

/-- The icon/message pair `showStats` displays for a finished activity. -/
def showStatsDisplay (correct maxRounds : Nat) : String × String :=
  let tier := statsTierOf correct maxRounds
  (statsTierIcon tier, getStatsMessage (statsTierLevel tier))

/-!
## GradePageRenderer, Grade 2 (`src/grade2/grade2.js`)
-/

/-- The text-node serialisation underlying `escapeHtml`: `&`, `<`, `>` become
entities, every other character is kept. -/
def escapeChars : List Char → List Char
  | [] => []
  | c :: cs =>
      (if c = '&' then "&amp;".data
       else if c = '<' then "&lt;".data
       else if c = '>' then "&gt;".data
       else [c]) ++ escapeChars cs

/-- `Grade2Page.escapeHtml(text)` (src/grade2/grade2.js lines 524-529):
`if (!text) return ''`, then the `div.textContent`/`div.innerHTML` round trip,
which serialises a text node by escaping `&`, `<`, `>`. Restricted to string
inputs, the falsy guard only captures the empty string. -/
def escapeHtml (text : String) : String :=
  if text = "" then "" else ⟨escapeChars text.data⟩

/-- `Grade2Page.getTranslation(type, id, field)` (src/grade2/grade2.js lines
109-120): returns the resolved string when it is truthy and differs from the
key, else `null`. -/
def getTranslationG2 (st : I18nState) (ty id field : String) : Option String :=
  let i18nKey := "section." ++ ty ++ "." ++ id ++ "." ++ field
  let translated := st.t i18nKey
  if translated ≠ "" ∧ translated ≠ i18nKey then some translated else none

/-- One activity of the grade-2 manifest JSON. -/
structure ActivityEntry where
  id : String
  icon : String
  path : String
  title : String
  description : String

/-- `Grade2Page.renderActivityCard(activity)` (src/grade2/grade2.js lines
240-252): the translated-or-manifest title and description and the `path` go
through `escapeHtml`; the icon (a pre-vetted static glyph from the manifest)
is interpolated raw. -/
def renderActivityCard (st : I18nState) (a : ActivityEntry) : String :=
  let title := (getTranslationG2 st "activities" a.id "title").getD a.title
  let description :=
    (getTranslationG2 st "activities" a.id "description").getD a.description
  "\n      <a href=\"" ++ escapeHtml a.path ++
    "\" class=\"activity-card\" data-activity=\"" ++ a.id ++
    "\">\n        <div class=\"activity-icon\">" ++ a.icon ++
    "</div>\n        <h3 class=\"activity-title\">" ++ escapeHtml title ++
    "</h3>\n        <p class=\"activity-description\">" ++
    escapeHtml description ++ "</p>\n      </a>\n    "

/-- Substring test (`String.prototype.includes`). -/
def containsSubAux (needle : List Char) : List Char → Bool
  | [] => needle.isEmpty
  | c :: cs => needle.isPrefixOf (c :: cs) || containsSubAux needle cs

def strContainsSub (hay needle : String) : Bool :=
  containsSubAux needle.data hay.data

/-!
## Markdown-lite (`formatInlineMarkdown` and friends, src/grade2/grade2.js)

The regex-replace pipeline is embedded as fuelled left-to-right scanners; each
scanner consumes at least one input character per step, so an initial fuel of
the input length is exact.
-/

/-- JS `\s` for the characters that occur in this content. -/
def isJsWhitespace (c : Char) : Bool :=
  c = ' ' || c = '\t' || c = '\n' || c = '\r'

/-- Decimal digit characters of a natural number (fuelled by its size). -/
def natToCharsF : Nat → Nat → List Char → List Char
  | 0, _, acc => acc
  | f + 1, n, acc =>
      if n = 0 then acc
      else natToCharsF f (n / 10) (Char.ofNat ('0'.toNat + n % 10) :: acc)

def natToChars (n : Nat) : List Char :=
  if n = 0 then ['0'] else natToCharsF (n + 1) n []

/-- The sentinel `\x00HTML${i}\x00` used by `formatInlineMarkdown`. -/
def sentinelChars (i : Nat) : List Char :=
  '\x00' :: ("HTML".data ++ natToChars i ++ ['\x00'])

/-- Stage 1 of `formatInlineMarkdown`: the global replace of `/<[^>]+>/` by
sentinels, collecting the extracted tags (in order, so the tag replaced by
sentinel `i` sits at index `i`). -/
def extractTagsF : Nat → Nat → List Char → List Char × List (List Char)
  | 0, _, l => (l, [])
  | _ + 1, _, [] => ([], [])
  | f + 1, i, c :: cs =>
      if c = '<' then
        let inner := cs.takeWhile (fun x => x ≠ '>')
        let rest := cs.drop inner.length
        match inner, rest with
        | _ :: _, '>' :: rest' =>
            let r := extractTagsF f (i + 1) rest'
            (sentinelChars i ++ r.1, ('<' :: (inner ++ ['>'])) :: r.2)
        | _, _ =>
            let r := extractTagsF f i cs
            (c :: r.1, r.2)
      else
        let r := extractTagsF f i cs
        (c :: r.1, r.2)

/-- A match of the sentinel pattern `\x00HTML(\d+)\x00` right after a `\x00`. -/
def matchSentinel (cs : List Char) : Option (Nat × List Char) :=
  if "HTML".data.isPrefixOf cs then
    let afterH := cs.drop 4
    let digits := afterH.takeWhile Char.isDigit
    let rest := afterH.drop digits.length
    match digits, rest with
    | _ :: _, '\x00' :: rest' => some (digitsToNat digits, rest')
    | _, _ => none
  else none

/-- Final stage of `formatInlineMarkdown`: restore the extracted tags
(`htmlTags[parseInt(index)]`). -/
def restoreTagsF (tags : List (List Char)) : Nat → List Char → List Char
  | 0, l => l
  | _ + 1, [] => []
  | f + 1, c :: cs =>
      if c = '\x00' then
        match matchSentinel cs with
        | some (idx, rest) => (tags.getD idx []) ++ restoreTagsF tags f rest
        | none => c :: restoreTagsF tags f cs
      else c :: restoreTagsF tags f cs

/-- A match of `/\*\*([^*]+)\*\*/` at the current position. -/
def tryBold : List Char → Option (List Char × List Char)
  | '*' :: '*' :: cs =>
      let inner := cs.takeWhile (fun x => x ≠ '*')
      let rest := cs.drop inner.length
      match inner, rest with
      | _ :: _, '*' :: '*' :: rest' => some (inner, rest')
      | _, _ => none
  | _ => none

/-- The global bold replace (`**text**` to `<strong>text</strong>`). -/
def boldReplF : Nat → List Char → List Char
  | 0, l => l
  | _ + 1, [] => []
  | f + 1, c :: cs =>
      match tryBold (c :: cs) with
      | some (inner, rest) =>
          "<strong>".data ++ inner ++ "</strong>".data ++ boldReplF f rest
      | none => c :: boldReplF f cs

/-- A match of `/(?<!\*)\*([^*]+)\*(?!\*)/` at the current position, given the
previous character of the scanned string (for the lookbehind). -/
def tryItal (prev : Option Char) : List Char → Option (List Char × List Char)
  | '*' :: cs =>
      if prev = some '*' then none
      else
        let inner := cs.takeWhile (fun x => x ≠ '*')
        let rest := cs.drop inner.length
        match inner, rest with
        | _ :: _, '*' :: rest' =>
            if rest'.head? = some '*' then none else some (inner, rest')
        | _, _ => none
  | _ => none

/-- The global italic replace (`*text*` to `<em>text</em>`). -/
def italReplF : Nat → Option Char → List Char → List Char
  | 0, _, l => l
  | _ + 1, _, [] => []
  | f + 1, prev, c :: cs =>
      match tryItal prev (c :: cs) with
      | some (inner, rest) =>
          "<em>".data ++ inner ++ "</em>".data ++ italReplF f (some '*') rest
      | none => c :: italReplF f (some c) cs

/-- The backtick character (inline-code delimiter). -/
def backtickChar : Char := Char.ofNat 96

/-- A match of the inline-code pattern at the current position. -/
def tryCode : List Char → Option (List Char × List Char)
  | [] => none
  | c :: cs =>
      if c = backtickChar then
        let inner := cs.takeWhile (fun x => x ≠ backtickChar)
        let rest := cs.drop inner.length
        match inner, rest with
        | _ :: _, d :: rest' =>
            if d = backtickChar then some (inner, rest') else none
        | _, _ => none
      else none

/-- The global inline-code replace. -/
def codeReplF : Nat → List Char → List Char
  | 0, l => l
  | _ + 1, [] => []
  | f + 1, c :: cs =>
      match tryCode (c :: cs) with
      | some (inner, rest) =>
          "<code>".data ++ inner ++ "</code>".data ++ codeReplF f rest
      | none => c :: codeReplF f cs

/-- `Grade2Page.formatInlineMarkdown(text)` (src/grade2/grade2.js lines
359-387): extract literal HTML tags into sentinels, escape `&`/`<`/`>` in the
remainder, apply the bold, italic and inline-code replaces, then restore the
tags. -/
def formatInlineMarkdown (text : String) : String :=
  let e := extractTagsF text.data.length 0 text.data
  let escaped := escapeChars e.1
  let b := boldReplF escaped.length escaped
  let it := italReplF b.length none b
  let cd := codeReplF it.length it
  ⟨restoreTagsF e.2 cd.length cd⟩

/-- `String.prototype.trim`. -/
def jsTrim (s : String) : String :=
  ⟨((s.data.dropWhile isJsWhitespace).reverse.dropWhile isJsWhitespace).reverse⟩

/-- The `currentBlock` record built by `parseTryAtHomeContent`. -/
structure TryAtHomeBlock where
  title : String
  description : String
deriving Repr, DecidableEq

/-- The regex `/^\* \*\*([^*]+)\*\*\s*(.*)?$/` of `parseTryAtHomeContent`
(src/grade2/grade2.js line 410) applied to a trimmed line: on success yields
the bold title segment and the rest of the line with leading whitespace
stripped. -/
def matchTryAtHomeTitle (line : String) : Option (String × String) :=
  match line.data with
  | '*' :: ' ' :: '*' :: '*' :: cs =>
      let ttl := cs.takeWhile (fun x => x ≠ '*')
      let rest := cs.drop ttl.length
      match ttl, rest with
      | _ :: _, '*' :: '*' :: rest' =>
          some (⟨ttl⟩, ⟨rest'.dropWhile isJsWhitespace⟩)
      | _, _ => none
  | _ => none

/-- One line of the `parseTryAtHomeContent` loop (src/grade2/grade2.js lines
400-424), carried as (blocks already pushed, current block). A line starting
`* **` first pushes the current block, then replaces it only if the title
regex matches; any other nonempty line extends the current description. -/
def tryAtHomeStep (acc : List TryAtHomeBlock × Option TryAtHomeBlock)
    (line : String) : List TryAtHomeBlock × Option TryAtHomeBlock :=
  let t := jsTrim line
  if "* **".data.isPrefixOf t.data then
    let pushed :=
      match acc.2 with
      | some b => acc.1 ++ [b]
      | none => acc.1
    match matchTryAtHomeTitle t with
    | some (ttl, after) =>
        (pushed,
          some ⟨ttl, if after = "" then "" else formatInlineMarkdown after⟩)
    | none => (pushed, acc.2)
  else if t ≠ "" ∧ acc.2.isSome then
    match acc.2 with
    | some b =>
        (acc.1,
          some ⟨b.title,
            (if b.description = "" then "" else b.description ++ " ") ++
              formatInlineMarkdown t⟩)
    | none => acc
  else acc

/-- The blocks produced by `parseTryAtHomeContent` (the source renders each
block to HTML at push time; rendering after collecting the same blocks yields
the identical output). -/
def parseTryAtHomeBlocks (content : String) : List TryAtHomeBlock :=
  if content = "" then []
  else
    let r := (splitChar '\n' content).foldl tryAtHomeStep ([], none)
    match r.2 with
    | some b => r.1 ++ [b]
    | none => r.1

/-- `renderTryAtHomeBlock(block)` (src/grade2/grade2.js lines 437-444). -/
def renderTryAtHomeBlock (b : TryAtHomeBlock) : String :=
  "\n      <div class=\"try-at-home-item\">\n        <strong>" ++ b.title ++
    "</strong>\n        <p>" ++ b.description ++ "</p>\n      </div>\n    "

/-- `parseTryAtHomeContent(content)` (src/grade2/grade2.js lines 392-432). -/
def parseTryAtHomeContent (content : String) : String :=
  String.join ((parseTryAtHomeBlocks content).map renderTryAtHomeBlock)

/-!
## KeyValueStore (storage part of `src/js/migration-helper.js`)

`localStorage` is modelled as `Option` of an entry list: `none` means the
availability probe (`isStorageAvailable`) fails, in which case every operation
degrades to its default. Stored values are the JSON-serialised strings that
`JSON.stringify` produces; `getItem` parses them back (a parse failure is the
caught-exception path returning the default).
-/

/-- `\x7b` and `\x7d` below are the object braces of the JSON syntax. -/
def jsonEscapeChar (c : Char) : List Char :=
  if c = '"' then ['\\', '"']
  else if c = '\\' then ['\\', '\\']
  else if c = '\n' then ['\\', 'n']
  else if c = '\t' then ['\\', 't']
  else if c = '\r' then ['\\', 'r']
  else [c]

def jsonEscapeString (s : String) : String :=
  ⟨(s.data.map jsonEscapeChar).flatten⟩

mutual

/-- `JSON.stringify` for our value type (integers, no spacing argument). -/
def jsonStringify : Json → String
  | .null => "null"
  | .bool true => "true"
  | .bool false => "false"
  | .num n => toString n
  | .str s => "\"" ++ jsonEscapeString s ++ "\""
  | .arr xs => "[" ++ jsonStringifyList xs ++ "]"
  | .obj fs => "\x7b" ++ jsonStringifyFields fs ++ "\x7d"

def jsonStringifyList : List Json → String
  | [] => ""
  | [x] => jsonStringify x
  | x :: xs => jsonStringify x ++ "," ++ jsonStringifyList xs

def jsonStringifyFields : List (String × Json) → String
  | [] => ""
  | [(k, v)] => "\"" ++ jsonEscapeString k ++ "\":" ++ jsonStringify v
  | (k, v) :: fs =>
      "\"" ++ jsonEscapeString k ++ "\":" ++ jsonStringify v ++ "," ++
        jsonStringifyFields fs

end

def skipWs (l : List Char) : List Char :=
  l.dropWhile (fun c => c = ' ' || c = '\n' || c = '\t' || c = '\r')

/-- Body of a JSON string literal after the opening quote; decodes the escape
sequences `jsonEscapeChar` produces (and `\\x` pass-through otherwise). -/
def parseStringBody : Nat → List Char → Option (String × List Char)
  | 0, _ => none
  | _ + 1, [] => none
  | f + 1, c :: cs =>
      if c = '"' then some ("", cs)
      else if c = '\\' then
        match cs with
        | d :: cs' =>
            let decoded :=
              if d = 'n' then '\n'
              else if d = 't' then '\t'
              else if d = 'r' then '\r'
              else d
            match parseStringBody f cs' with
            | some (s, rest) => some (⟨decoded :: s.data⟩, rest)
            | none => none
        | [] => none
      else
        match parseStringBody f cs with
        | some (s, rest) => some (⟨c :: s.data⟩, rest)
        | none => none

/-- Integer literal (our stringified values carry no fractional part). -/
def parseJsonNumber : List Char → Option (Json × List Char)
  | '-' :: cs =>
      let ds := cs.takeWhile Char.isDigit
      match ds with
      | [] => none
      | _ => some (.num (-(digitsToNat ds : Int)), cs.drop ds.length)
  | cs =>
      let ds := cs.takeWhile Char.isDigit
      match ds with
      | [] => none
      | _ => some (.num (digitsToNat ds), cs.drop ds.length)

mutual

/-- Recursive-descent `JSON.parse` for the values `jsonStringify` emits.
`\x7b`/`\x7d` are the object braces. -/
def parseJsonF : Nat → List Char → Option (Json × List Char)
  | 0, _ => none
  | f + 1, l =>
      match skipWs l with
      | [] => none
      | c :: cs =>
          if c = 'n' then
            if "ull".data.isPrefixOf cs then some (.null, cs.drop 3) else none
          else if c = 't' then
            if "rue".data.isPrefixOf cs then some (.bool true, cs.drop 3)
            else none
          else if c = 'f' then
            if "alse".data.isPrefixOf cs then some (.bool false, cs.drop 4)
            else none
          else if c = '"' then
            match parseStringBody (cs.length + 1) cs with
            | some (s, rest) => some (.str s, rest)
            | none => none
          else if c = '[' then
            match parseArrItems f cs with
            | some (xs, rest) => some (.arr xs, rest)
            | none => none
          else if c = '\x7b' then
            match parseObjItems f cs with
            | some (fs, rest) => some (.obj fs, rest)
            | none => none
          else parseJsonNumber (c :: cs)

def parseArrItems : Nat → List Char → Option (List Json × List Char)
  | 0, _ => none
  | f + 1, l =>
      match skipWs l with
      | ']' :: rest => some ([], rest)
      | l' =>
          match parseJsonF f l' with
          | some (v, rest) =>
              match skipWs rest with
              | ',' :: rest' =>
                  match parseArrItems f rest' with
                  | some (vs, rest'') => some (v :: vs, rest'')
                  | none => none
              | ']' :: rest' => some ([v], rest')
              | _ => none
          | none => none

def parseObjItems : Nat → List Char → Option (List (String × Json) × List Char)
  | 0, _ => none
  | f + 1, l =>
      match skipWs l with
      | '\x7d' :: rest => some ([], rest)
      | '"' :: cs =>
          match parseStringBody (cs.length + 1) cs with
          | some (k, rest) =>
              match skipWs rest with
              | ':' :: rest' =>
                  match parseJsonF f rest' with
                  | some (v, rest'') =>
                      match skipWs rest'' with
                      | ',' :: rest3 =>
                          match parseObjItems f rest3 with
                          | some (fs, rest4) => some ((k, v) :: fs, rest4)
                          | none => none
                      | '\x7d' :: rest3 => some ([(k, v)], rest3)
                      | _ => none
                  | none => none
              | _ => none
          | none => none
      | _ => none

end

/-- `JSON.parse(s)`: `none` is the thrown-`SyntaxError` path. -/
def jsonParse (s : String) : Option Json :=
  match parseJsonF (2 * s.length + 8) s.data with
  | some (v, rest) => if skipWs rest = [] then some v else none
  | none => none

/-- `getItem(key, defaultValue)` (src/js/migration-helper.js storage section,
lines 403-413): the default when storage is unavailable, when the key is
absent (or its item falsy), or when parsing throws. -/
def storageGetItem (store : Option (List (String × String))) (key : String)
    (dflt : Json) : Json :=
  match store with
  | none => dflt
  | some entries =>
      match assocLookup entries key with
      | none => dflt
      | some item => if item = "" then dflt else (jsonParse item).getD dflt

/-- `setItem(key, value)` (same file, lines 421-431): `false` without touching
anything when storage is unavailable, else stores `JSON.stringify(value)` and
returns `true`. -/
def storageSetItem (store : Option (List (String × String))) (key : String)
    (value : Json) : Option (List (String × String)) × Bool :=
  match store with
  | none => (none, false)
  | some entries => (some (assocSet entries key (jsonStringify value)), true)

/-!
## Concrete states used by the theorems below
-/

/-- The amended progress-cell rule actually implemented by the Pre-K
`renderProgress`: `completed` strictly below the current round, `current` at
the current round, plain above it — independent of the answered flag. -/
def amendedProgressCellClass (s : PreKActivityState) (i : Nat) : String :=
  if i < s.round then "progress-dot completed"
  else if i = s.round then "progress-dot current"
  else "progress-dot"

/-- An environment in which every fetch fails (never consulted in the
cache-hit scenarios below). -/
def fetchEnvEmpty : FetchEnv := ⟨fun _ => none, fun _ _ => none⟩

/-- An i18n state whose active language is `en` with its common bundle
already cached — the "already active" scenario for `setLanguage("en")`. -/
def c3ExampleState : I18nState :=
  { currentLang := "en", fallbackLang := "en",
    supportedLanguages := ["en", "vi"],
    translations := [("en", Json.obj [("greeting", Json.str "Hello")])],
    cache := [("en", ⟨some (Json.obj [("greeting", Json.str "Hello")]), []⟩),
              ("vi", ⟨none, []⟩)],
    currentSection := none }

/-- A Pre-K activity mid-game: round 2 of 5, current round already answered
(`isComplete = true`). -/
def c5ExampleState : PreKActivityState :=
  { maxRounds := 5, round := 2, correctCount := 1, wrongCount := 0,
    isComplete := true }

/-- The content key PreKPage passes to the missing `getRaw` for level 1's
"big idea" card. -/
def prekLearnMoreKey : String := "section.levels.level1.learnMore.bigIdea"

/-- An i18n state whose loaded tree holds learn-more content at
`prekLearnMoreKey`. -/
def c6ExampleState : I18nState :=
  { currentLang := "en", fallbackLang := "en",
    supportedLanguages := ["en", "vi"],
    translations :=
      [("en", Json.obj [("section", Json.obj [("levels", Json.obj [("level1",
          Json.obj [("learnMore", Json.obj [("bigIdea",
            Json.str "Counting tells how many.")])])])])])],
    cache := [], currentSection := some "prek" }

/-- An i18n state with no translations loaded (every lookup echoes its key,
so the manifest strings are used as-is). -/
def c7EmptyState : I18nState :=
  { currentLang := "en", fallbackLang := "en",
    supportedLanguages := ["en", "vi"],
    translations := [], cache := [], currentSection := some "grade2" }

/-- A manifest activity whose title carries a script tag. -/
def c7EvilActivity : ActivityEntry :=
  { id := "evil", icon := "🎲", path := "activities/evil.html",
    title := "<script>alert(1)</script>", description := "A description" }

/-- Active `vi` tree resolves `greeting` to an object while the fallback `en`
tree holds a string there. -/
def c10ExampleState : I18nState :=
  { currentLang := "vi", fallbackLang := "en",
    supportedLanguages := ["en", "vi"],
    translations :=
      [("vi", Json.obj [("greeting", Json.obj [])]),
       ("en", Json.obj [("greeting", Json.str "Hello")])],
    cache := [], currentSection := none }

/-- An empty active `vi` tree (as after a failed bundle fetch) with a fallback
`en` bundle whose key `toString` collides with an `Object.prototype` member. -/
def c1ProtoState : I18nState :=
  { currentLang := "vi", fallbackLang := "en",
    supportedLanguages := ["en", "vi"],
    translations :=
      [("vi", Json.obj []),
       ("en", Json.obj [("toString", Json.str "Hi")])],
    cache := [], currentSection := none }

/-- A state and key away from any prototype member name: active `vi` tree
misses `nav.home`, the fallback `en` tree holds it. -/
def c1OkState : I18nState :=
  { currentLang := "vi", fallbackLang := "en",
    supportedLanguages := ["en", "vi"],
    translations :=
      [("vi", Json.obj [("nav", Json.obj [])]),
       ("en", Json.obj [("nav", Json.obj [("home", Json.str "Home")])])],
    cache := [], currentSection := none }

/-!
## Helper lemmas
-/

theorem navigate_falsy (w : Option Json) (ks : List String) (hne : ks ≠ [])
    (hw : jsTruthyOpt w = false) : navigate (w.map JsValue.data) ks = none := by
  cases ks with
  | nil => exact absurd rfl hne
  | cons k ks =>
      cases w with
      | none => simp [navigate, stepCond]
      | some j =>
          simp only [jsTruthyOpt] at hw
          simp [navigate, stepCond, JsValue.jsTruthy, hw]

theorem navigate_data_eq_own :
    ∀ ks : List String,
      (∀ seg ∈ ks, objectProtoMembers.contains seg = false ∧
        arrayProtoMembers.contains seg = false) →
      ∀ w : Option Json,
        navigate (w.map JsValue.data) ks = (navigateOwn w ks).map JsValue.data := by
  intro ks
  induction ks with
  | nil => intro _ w; rfl
  | cons k ks ih =>
      intro hks w
      have hk := hks k (List.mem_cons_self k ks)
      have hk1 : k ∉ objectProtoMembers := by simpa using hk.1
      have hk2 : k ∉ arrayProtoMembers := by simpa using hk.2
      have hks' : ∀ seg ∈ ks, objectProtoMembers.contains seg = false ∧
          arrayProtoMembers.contains seg = false :=
        fun seg hseg => hks seg (List.mem_cons_of_mem k hseg)
      cases w with
      | none => simp [navigate, navigateOwn, stepCond]
      | some j =>
          rw [show Option.map JsValue.data (some j) = some (JsValue.data j)
                from rfl,
              show navigate (some (JsValue.data j)) (k :: ks) =
                  if stepCond (some (JsValue.data j)) k then
                    navigate (some ((JsValue.data j).getProp k)) ks
                  else none
                from rfl,
              show navigateOwn (some j) (k :: ks) =
                  if j.jsTruthy && j.typeofIsObject && j.hasOwnProp k then
                    navigateOwn (some (j.getOwnProp k)) ks
                  else none
                from rfl]
          cases j with
          | obj fs =>
              have hsc : stepCond (some (JsValue.data (Json.obj fs))) k =
                  (objLookup fs k).isSome := by
                simp [stepCond, JsValue.jsTruthy, Json.jsTruthy,
                  JsValue.typeofIsObject, Json.typeofIsObject,
                  JsValue.hasProp, hk1]
              have hscOwn : ((Json.obj fs).jsTruthy &&
                  (Json.obj fs).typeofIsObject &&
                  (Json.obj fs).hasOwnProp k) = (objLookup fs k).isSome := by
                simp [Json.jsTruthy, Json.typeofIsObject, Json.hasOwnProp]
              rw [hsc, hscOwn]
              by_cases hown : (objLookup fs k).isSome = true
              · rw [if_pos hown, if_pos hown]
                obtain ⟨v, ho⟩ := Option.isSome_iff_exists.mp hown
                have hgp : (JsValue.data (Json.obj fs)).getProp k =
                    JsValue.data ((Json.obj fs).getOwnProp k) := by
                  simp [JsValue.getProp, Json.getOwnProp, ho]
                rw [hgp]
                exact ih hks' (some ((Json.obj fs).getOwnProp k))
              · rw [if_neg hown, if_neg hown]
                rfl
          | arr xs =>
              have hsc : stepCond (some (JsValue.data (Json.arr xs))) k =
                  (Json.arr xs).hasOwnProp k := by
                simp [stepCond, JsValue.jsTruthy, Json.jsTruthy,
                  JsValue.typeofIsObject, Json.typeofIsObject,
                  JsValue.hasProp, hk1, hk2]
              have hscOwn : ((Json.arr xs).jsTruthy &&
                  (Json.arr xs).typeofIsObject &&
                  (Json.arr xs).hasOwnProp k) = (Json.arr xs).hasOwnProp k := by
                simp [Json.jsTruthy, Json.typeofIsObject]
              rw [hsc, hscOwn]
              by_cases hown : (Json.arr xs).hasOwnProp k = true
              · rw [if_pos hown, if_pos hown]
                have hgp : (JsValue.data (Json.arr xs)).getProp k =
                    JsValue.data ((Json.arr xs).getOwnProp k) := by
                  simp [JsValue.getProp, hown]
                rw [hgp]
                exact ih hks' (some ((Json.arr xs).getOwnProp k))
              · rw [if_neg hown, if_neg hown]
                rfl
          | null =>
              simp [stepCond, JsValue.jsTruthy, Json.jsTruthy]
          | bool b =>
              simp [stepCond, JsValue.jsTruthy, JsValue.typeofIsObject,
                Json.typeofIsObject]
          | num n =>
              simp [stepCond, JsValue.jsTruthy, JsValue.typeofIsObject,
                Json.typeofIsObject]
          | str s =>
              simp [stepCond, JsValue.jsTruthy, JsValue.typeofIsObject,
                Json.typeofIsObject]

theorem loadCommon_currentLang (st : I18nState) (env : FetchEnv) (lang : String) :
    (loadCommon st env lang).1.currentLang = st.currentLang := by
  unfold loadCommon
  rcases hc : (st.cacheFor lang).common with _ | d
  · rcases he : env.common lang with _ | d
    · by_cases h : jsTruthyOpt (objLookup st.translations lang) = true <;> simp [h]
    · simp
  · simp

theorem loadSection_currentLang (st : I18nState) (env : FetchEnv)
    (lang sec : String) :
    (loadSection st env lang sec).1.currentLang = st.currentLang := by
  unfold loadSection
  rcases hc : assocLookup (st.cacheFor lang).sections sec with _ | d
  · rcases he : env.sectionBundle lang sec with _ | d <;> simp
  · simp

theorem loadCommon_cached_no_effects (st : I18nState) (env : FetchEnv)
    (lang : String) (h : ((st.cacheFor lang).common).isSome = true) :
    (loadCommon st env lang).2 = [] := by
  unfold loadCommon
  rcases hc : (st.cacheFor lang).common with _ | d
  · rw [hc] at h; simp at h
  · simp

theorem loadSection_no_fetchCommon (st : I18nState) (env : FetchEnv)
    (lang sec l' : String) :
    Effect.fetchCommon l' ∉ (loadSection st env lang sec).2 := by
  unfold loadSection
  rcases hc : assocLookup (st.cacheFor lang).sections sec with _ | d
  · rcases he : env.sectionBundle lang sec with _ | d <;> simp
  · simp

theorem escapeChars_no_angle :
    ∀ l : List Char, ∀ c ∈ escapeChars l, c ≠ '<' ∧ c ≠ '>' := by
  intro l
  induction l with
  | nil => simp [escapeChars]
  | cons c cs ih =>
      intro x hx
      simp only [escapeChars, List.mem_append] at hx
      rcases hx with hx | hx
      · split_ifs at hx with h1 h2 h3
        · simp at hx
          rcases hx with rfl | rfl | rfl | rfl | rfl <;> exact ⟨by decide, by decide⟩
        · simp at hx
          rcases hx with rfl | rfl | rfl | rfl <;> exact ⟨by decide, by decide⟩
        · simp at hx
          rcases hx with rfl | rfl | rfl | rfl <;> exact ⟨by decide, by decide⟩
        · simp at hx
          subst hx
          exact ⟨h2, h3⟩
      · exact ih x hx

theorem takeWhile_ne_star_append (l1 r : List Char) (h : '*' ∉ l1) :
    (l1 ++ '*' :: r).takeWhile (fun x => x ≠ '*') = l1 := by
  induction l1 with
  | nil => simp [List.takeWhile]
  | cons c cs ih =>
      simp only [List.mem_cons, not_or] at h
      simp only [List.cons_append, List.takeWhile]
      have : (decide ¬(c = '*')) = true := by
        simp only [decide_eq_true_eq]
        exact fun hc => h.1 hc.symm
      rw [this]
      simp only [List.cons.injEq, true_and]
      exact ih h.2

/-!
## Claim theorems
-/

/-- C1 counterexample: the JS `in` operator also sees inherited prototype
members, so at key `toString` with an empty active tree the loop condition
passes via `Object.prototype.toString`, the fallback is never consulted, and
`t` echoes the key — while the claim's tree-resolution description
(`tSpecModel`: the segment is missing from the active tree, the fallback
holds the string `"Hi"`) produces `"Hi"`. -/
theorem t_prototype_member_blocks_fallback :
    navigateOwn (c1ProtoState.langTree "vi") (splitDot "toString") = none ∧
    c1ProtoState.t "toString" = "toString" ∧
    tSpecModel (c1ProtoState.langTree "vi") (c1ProtoState.langTree "en")
      "toString" = "Hi" := by
  decide

/-- C1 (amended): `t` resolves the key segment by segment with the JS `in`
operator, which sees inherited prototype members as well as the tree's own
entries; it restarts the full path against the fallback tree exactly when
that check fails, and echoes the key when both attempts fail or the resolved
value is not a string (`tRuntimeModel`). For every key none of whose segments
names an `Object.prototype` or `Array.prototype` member, the check coincides
with tree membership and the spec's original description (`tSpecModel`)
holds verbatim. (`t` is a total Lean function, so it cannot throw on any
string input.) -/
theorem t_resolution_model :
    (∀ (st : I18nState) (key : String),
       st.t key =
         tRuntimeModel (st.langValue st.currentLang)
           (st.langValue st.fallbackLang) key) ∧
    (∀ (st : I18nState) (key : String),
       (∀ seg ∈ splitDot key, objectProtoMembers.contains seg = false ∧
          arrayProtoMembers.contains seg = false) →
       st.t key =
         tSpecModel (st.langTree st.currentLang) (st.langTree st.fallbackLang)
           key) := by
  have hrun : ∀ (st : I18nState) (key : String),
      st.t key = tRuntimeModel (st.langValue st.currentLang)
        (st.langValue st.fallbackLang) key := by
    intro st key
    unfold I18nState.t tRuntimeModel
    cases h : navigate (st.langValue st.currentLang) (splitDot key) with
    | some v => simp [h]
    | none =>
        by_cases hw : jsTruthyOpt (st.langTree st.fallbackLang) = true
        · simp [h, hw]
        · have hnone :
              navigate (st.langValue st.fallbackLang) (splitDot key) = none :=
            navigate_falsy _ _ (splitDot_ne_nil key) (by simpa using hw)
          simp [h, hw, hnone]
  refine ⟨hrun, ?_⟩
  intro st key hsegs
  rw [hrun st key]
  unfold tRuntimeModel tSpecModel
  simp only []
  rw [show st.langValue st.currentLang = (st.langTree st.currentLang).map JsValue.data
        from rfl,
      show st.langValue st.fallbackLang = (st.langTree st.fallbackLang).map JsValue.data
        from rfl,
      navigate_data_eq_own (splitDot key) hsegs (st.langTree st.currentLang),
      navigate_data_eq_own (splitDot key) hsegs (st.langTree st.fallbackLang)]
  cases navigateOwn (st.langTree st.currentLang) (splitDot key) with
  | some v => cases v <;> rfl
  | none =>
      cases navigateOwn (st.langTree st.fallbackLang) (splitDot key) with
      | some v => cases v <;> rfl
      | none => rfl

/-- Witness for C1 (amended): at `nav.home` — no segment names a prototype
member — `t` on `c1OkState` agrees with the spec's tree-resolution
description. -/
theorem t_resolution_model_witness :
    c1OkState.t "nav.home" =
      tSpecModel (c1OkState.langTree c1OkState.currentLang)
        (c1OkState.langTree c1OkState.fallbackLang) "nav.home" :=
  t_resolution_model.2 c1OkState "nav.home" (by decide)

/-- C10: when the dot path fully resolves in the active language's tree but
the resolved value is not a string, `t` returns the key itself and never
consults the fallback tree (the state's fallback tree is arbitrary here). -/
theorem t_nonstring_active_resolution_echoes_key (st : I18nState) (key : String)
    (v : JsValue) (h : navigate (st.langValue st.currentLang) (splitDot key) = some v)
    (hv : v.isStr = false) : st.t key = key := by
  unfold I18nState.t
  rcases v with j | _ | _ | _
  · cases j <;> simp_all [stringOrKey, JsValue.isStr, Json.isStr]
  all_goals simp_all [stringOrKey]

/-- Witness for C10: in `c10ExampleState` the path `greeting` resolves to an
object in the active `vi` tree while the fallback `en` tree holds the string
`"Hello"` there, yet `t` echoes the key. -/
theorem t_nonstring_active_resolution_echoes_key_witness :
    c10ExampleState.t "greeting" = "greeting" :=
  t_nonstring_active_resolution_echoes_key c10ExampleState "greeting"
    (JsValue.data (Json.obj [])) (by decide) (by decide)

/-- C2 counterexample: the Pre-K `recordCorrect` sets `isComplete` but never
checks it, so reporting the same round twice double-counts: after one report
the flag is set, and a second report still raises `correctCount` to 2 (the
claim's guard would leave it at 1). -/
theorem recordCorrect_unguarded_double_counts :
    (recordCorrect (mkPreKActivity (some 5))).isComplete = true ∧
    (recordCorrect (recordCorrect (mkPreKActivity (some 5)))).correctCount = 2 := by
  decide

/-- C2 (amended): `recordCorrect`/`recordWrong` increment their counter
unconditionally on every call (no `isAnswered`/`isComplete` guard exists in
this engine), so under correct usage — each round reported exactly once —
`correctCount + wrongCount` equals the number of rounds played; in particular
five rounds each answered once give exactly 5. -/
theorem prek_counters_increment_per_report :
    (∀ s : PreKActivityState,
       (recordCorrect s).correctCount = s.correctCount + 1 ∧
       (recordCorrect s).wrongCount = s.wrongCount ∧
       (recordWrong s).wrongCount = s.wrongCount + 1 ∧
       (recordWrong s).correctCount = s.correctCount) ∧
    (∀ (bs : List Bool) (s : PreKActivityState),
       (playRounds bs s).correctCount + (playRounds bs s).wrongCount =
         s.correctCount + s.wrongCount + bs.length) ∧
    ((playRounds [true, true, false, true, false]
        (mkPreKActivity (some 5))).correctCount +
      (playRounds [true, true, false, true, false]
        (mkPreKActivity (some 5))).wrongCount = 5) := by
  refine ⟨fun s => ⟨rfl, rfl, rfl, rfl⟩, ?_, by decide⟩
  intro bs
  induction bs with
  | nil => intro s; simp [playRounds]
  | cons b bs ih =>
      intro s
      have hstep : playRounds (b :: bs) s =
          playRounds bs (nextRound (if b then recordCorrect s else recordWrong s)) := rfl
      rw [hstep, ih]
      cases b <;> simp [nextRound, recordCorrect, recordWrong] <;> omega

/-- C5 counterexample: with round 2 of 5 already answered
(`isComplete = true`), the Pre-K `renderProgress` marks cell 2 `current`,
whereas the claimed rule (answered current round is `completed`) marks it
`completed`. -/
theorem renderProgress_ignores_answered_flag_cex :
    renderProgressCells c5ExampleState =
      ["progress-dot completed", "progress-dot current", "progress-dot",
       "progress-dot", "progress-dot"] ∧
    claimProgressCells c5ExampleState =
      ["progress-dot completed", "progress-dot completed", "progress-dot",
       "progress-dot", "progress-dot"] := by
  decide

/-- C5 (amended): the Pre-K progress indicator always renders exactly
`maxRounds` cells; a cell at 1-based index `i` is `completed` iff
`i < round`, `current` iff `i = round`, and plain otherwise — the answered
state of the current round (`isComplete`) has no effect on the cells. -/
theorem renderProgress_cells_characterization :
    (∀ s : PreKActivityState, (renderProgressCells s).length = s.maxRounds) ∧
    (∀ s : PreKActivityState,
       renderProgressCells s =
         (List.range s.maxRounds).map (fun j => amendedProgressCellClass s (j + 1))) ∧
    (∀ (s : PreKActivityState) (b : Bool),
       renderProgressCells { s with isComplete := b } = renderProgressCells s) := by
  refine ⟨fun s => by simp [renderProgressCells], fun s => ?_, fun s b => rfl⟩
  unfold renderProgressCells amendedProgressCellClass progressCellClass
  apply List.map_congr_left
  intro j _
  split_ifs <;> rfl

/-- C9: KeyValueStore round trip — with storage available,
`set('k', {a:1})` then `get('k', null)` returns a value deep-equal to
`{a:1}` (and `set` reports success); `get` of a never-set key returns the
provided default; with storage unavailable, `set` returns `false` and `get`
returns the default. All operations are total functions, so none throws. -/
theorem storage_roundtrip_and_defaults :
    (storageGetItem (storageSetItem (some []) "k" (Json.obj [("a", Json.num 1)])).1
        "k" Json.null = Json.obj [("a", Json.num 1)] ∧
      (storageSetItem (some []) "k" (Json.obj [("a", Json.num 1)])).2 = true) ∧
    storageGetItem (some []) "missing" (Json.str "D") = Json.str "D" ∧
    (∀ (k : String) (v : Json), storageSetItem none k v = (none, false)) ∧
    (∀ (k : String) (d : Json), storageGetItem none k d = d) :=
  ⟨⟨by decide, rfl⟩, by decide, fun _ _ => rfl, fun _ _ => rfl⟩

/-- C6 (code bug): the `i18n` object defines no `getRaw` member, so
`window.i18n?.getRaw?.(key)` in PreKPage.renderLearnMoreContent is always
`undefined` and every learn-more card is skipped — even though the
spec-modelled `getRaw` would resolve the level-1 "big idea" key to its raw
string in a state whose tree holds that content. -/
theorem getRaw_missing_prek_cards_skipped :
    i18nObjectKeys.contains "getRaw" = false ∧
    (∀ (st : I18nState) (key : String), prekCardContent st key = none) ∧
    getRawSpecModel (c6ExampleState.langValue "en") (c6ExampleState.langValue "en")
        prekLearnMoreKey =
      some (JsValue.data (Json.str "Counting tells how many.")) := by
  refine ⟨by decide, fun st key => ?_, by decide⟩
  unfold prekCardContent
  rw [if_neg (by decide)]

/-- C4: with `percent = correctCount / totalRounds` (exact division), the
Pre-K completion summary selects the top tier exactly when `percent ≥ 0.8`,
the mid tier exactly when `0.6 ≤ percent < 0.8`, and the low tier otherwise;
in particular 4 of 5 is the top tier (star icon, "excellent" message), 3 of 5
the mid tier (party icon, "good" message), and 2 of 5 the low tier. -/
theorem completion_tiering_thresholds :
    (∀ c m : Nat, 0 < m →
       ((statsTierOf c m = .top ↔ (8 : ℚ)/10 ≤ (c : ℚ)/(m : ℚ)) ∧
        (statsTierOf c m = .mid ↔
          (6 : ℚ)/10 ≤ (c : ℚ)/(m : ℚ) ∧ (c : ℚ)/(m : ℚ) < 8/10) ∧
        (statsTierOf c m = .low ↔ (c : ℚ)/(m : ℚ) < 6/10))) ∧
    showStatsDisplay 4 5 = ("🌟", "Amazing! You did great!") ∧
    showStatsDisplay 3 5 = ("🎉", "Great job!") ∧
    showStatsDisplay 2 5 = ("👍", "Good effort! Try again!") := by
  refine ⟨?_, ?_, ?_, ?_⟩
  · intro c m _
    unfold statsTierOf
    by_cases h1 : (8 : ℚ)/10 ≤ (c : ℚ)/(m : ℚ)
    · rw [if_pos h1]
      refine ⟨iff_of_true rfl h1, ?_, ?_⟩
      · exact iff_of_false (by simp) (fun hc => (not_le.mpr hc.2) h1)
      · exact iff_of_false (by simp)
          (fun hc => (not_le.mpr (lt_of_lt_of_le hc (by norm_num))) h1)
    · rw [if_neg h1]
      by_cases h2 : (6 : ℚ)/10 ≤ (c : ℚ)/(m : ℚ)
      · rw [if_pos h2]
        refine ⟨iff_of_false (by simp) h1, ?_, ?_⟩
        · exact iff_of_true rfl ⟨h2, not_le.mp h1⟩
        · exact iff_of_false (by simp) (fun hc => (not_le.mpr hc) h2)
      · rw [if_neg h2]
        exact ⟨iff_of_false (by simp) h1,
          iff_of_false (by simp) (fun hc => h2 hc.1),
          iff_of_true rfl (not_le.mp h2)⟩
  · unfold showStatsDisplay statsTierOf
    norm_num
    decide
  · unfold showStatsDisplay statsTierOf
    norm_num
    decide
  · unfold showStatsDisplay statsTierOf
    norm_num
    decide

/-- Witness for C4: the threshold characterisation instantiated at
`correctCount = 4`, `totalRounds = 5`. -/
theorem completion_tiering_thresholds_witness :
    (statsTierOf 4 5 = .top ↔ (8 : ℚ)/10 ≤ (4 : ℚ)/(5 : ℚ)) ∧
    (statsTierOf 4 5 = .mid ↔
      (6 : ℚ)/10 ≤ (4 : ℚ)/(5 : ℚ) ∧ (4 : ℚ)/(5 : ℚ) < 8/10) ∧
    (statsTierOf 4 5 = .low ↔ (4 : ℚ)/(5 : ℚ) < 6/10) :=
  completion_tiering_thresholds.1 4 5 (by norm_num)

set_option maxRecDepth 100000 in
/-- C7: `escapeHtml` output never contains `<` or `>`, a literal script tag is
escaped to entities, and the rendered activity card for a manifest title
containing `<script>` carries the escaped entities in its title node and no
`<script` tag anywhere. -/
theorem activity_card_escapes_data_text :
    (∀ s : String,
      (escapeHtml s).data.all (fun c => c ≠ '<' && c ≠ '>') = true) ∧
    escapeHtml "<script>" = "&lt;script&gt;" ∧
    strContainsSub (renderActivityCard c7EmptyState c7EvilActivity)
      "&lt;script&gt;alert(1)&lt;/script&gt;" = true ∧
    strContainsSub (renderActivityCard c7EmptyState c7EvilActivity)
      "<script" = false := by
  refine ⟨?_, by decide, by decide, by decide⟩
  intro s
  rw [List.all_eq_true]
  intro c hc
  have hnc : c ≠ '<' ∧ c ≠ '>' := by
    unfold escapeHtml at hc
    split_ifs at hc with h
    · simp at hc
    · exact escapeChars_no_angle s.data c hc
  simp [hnc.1, hnc.2]

set_option maxRecDepth 100000 in
/-- C8: a "try at home" bullet line whose leading segment is bolded —
`* **<title>** <rest>` with a nonempty star-free title — matches the title
regex with the bolded segment as the title and the following text (leading
whitespace stripped) as the description source; in particular
`"* **Title** desc"` parses to a single block with title `"Title"` and
description `"desc"`, and the rendered HTML contains `"desc"`. -/
theorem try_at_home_bold_title_parsing :
    (∀ t d : String, t.data ≠ [] → '*' ∉ t.data →
       matchTryAtHomeTitle ("* **" ++ t ++ "** " ++ d) =
         some (t, ⟨d.data.dropWhile isJsWhitespace⟩)) ∧
    parseTryAtHomeBlocks "* **Title** desc" =
      [{ title := "Title", description := "desc" }] ∧
    strContainsSub (parseTryAtHomeContent "* **Title** desc") "desc" = true := by
  refine ⟨?_, by decide, by decide⟩
  intro t d hne hstar
  have hdata : ("* **" ++ t ++ "** " ++ d).data
      = '*' :: ' ' :: '*' :: '*' :: (t.data ++ '*' :: '*' :: ' ' :: d.data) := by
    simp [String.data_append]
  unfold matchTryAtHomeTitle
  rw [hdata]
  have htw : (t.data ++ '*' :: '*' :: ' ' :: d.data).takeWhile
      (fun x => x ≠ '*') = t.data :=
    takeWhile_ne_star_append t.data ('*' :: ' ' :: d.data) hstar
  cases ht : t.data with
  | nil => exact absurd ht hne
  | cons c cs =>
      rw [ht] at htw
      simp only [htw, ht]
      rw [show ((c :: cs) ++ '*' :: '*' :: ' ' :: d.data).drop (c :: cs).length
            = '*' :: '*' :: ' ' :: d.data from List.drop_left _ _]
      simp only [List.dropWhile]
      have hsp : isJsWhitespace ' ' = true := by decide
      rw [hsp]
      congr 1
      have : (⟨c :: cs⟩ : String) = t := by rw [← ht]
      simp [this]

/-- Witness for C8: the general bolded-bullet lemma applied at
`t = "Title"`, `d = "desc"`. -/
theorem try_at_home_bold_title_parsing_witness :
    matchTryAtHomeTitle ("* **" ++ "Title" ++ "** " ++ "desc") =
      some ("Title", ⟨"desc".data.dropWhile isJsWhitespace⟩) :=
  try_at_home_bold_title_parsing.1 "Title" "desc" (by decide) (by decide)

/-- C3 counterexample: calling `setLanguage` with the already-active language
(`"en"` active, bundle cached, no section page) is not a no-op — it persists
the choice, re-applies translations to the DOM, and re-emits the
language-change notification. -/
theorem setLanguage_already_active_has_side_effects :
    c3ExampleState.currentLang = "en" ∧
    (setLanguage c3ExampleState fetchEnvEmpty "en").2 =
      [.persistLang "en", .setDocLang "en", .applyTranslations,
       .languageChanged "en"] := by
  decide

/-- C3 (amended): `setLanguage` is a no-op (state unchanged, only a console
warning) exactly for unsupported languages; for any supported language —
including the already-active one — it sets the active language, persists the
choice, re-applies translations, emits the language-change notification, and
(per-language cache) issues no common-bundle fetch when that bundle is
cached. The already-active short-circuit exists only in the language-button
click handler, not in `setLanguage`. -/
theorem setLanguage_noop_only_for_unsupported :
    ∀ (st : I18nState) (env : FetchEnv) (lang : String),
      (lang ∉ st.supportedLanguages →
        setLanguage st env lang = (st, [.warnUnsupported lang])) ∧
      (lang ∈ st.supportedLanguages →
        (setLanguage st env lang).1.currentLang = lang ∧
        Effect.persistLang lang ∈ (setLanguage st env lang).2 ∧
        Effect.applyTranslations ∈ (setLanguage st env lang).2 ∧
        Effect.languageChanged lang ∈ (setLanguage st env lang).2 ∧
        (((st.cacheFor lang).common).isSome = true →
          Effect.fetchCommon lang ∉ (setLanguage st env lang).2)) := by
  intro st env lang
  constructor
  · intro h
    unfold setLanguage
    rw [if_neg h]
  · intro h
    unfold setLanguage
    rw [if_pos h]
    dsimp only
    set st1 : I18nState := { st with currentLang := lang } with hst1
    have hcache : st1.cacheFor lang = st.cacheFor lang := rfl
    refine ⟨?_, ?_, ?_, ?_, ?_⟩
    · cases hs : st.currentSection with
      | none =>
          simp only [hs]
          rw [loadCommon_currentLang]
      | some sec =>
          simp only [hs]
          rw [loadSection_currentLang, loadCommon_currentLang]
    · cases hs : st.currentSection <;> simp [hs]
    · cases hs : st.currentSection <;> simp [hs]
    · cases hs : st.currentSection <;> simp [hs]
    · intro hsome
      have h2 : (loadCommon st1 env lang).2 = [] :=
        loadCommon_cached_no_effects st1 env lang (by rw [hcache]; exact hsome)
      cases hs : st.currentSection with
      | none => simp [hs, h2]
      | some sec =>
          have h3 := loadSection_no_fetchCommon (loadCommon st1 env lang).1
            env lang sec lang
          simp [hs, h2, h3]

/-- Witness for C3 (amended): instantiated at the unsupported language `"zz"`
and at the supported, already-active, cached language `"en"` of
`c3ExampleState`. -/
theorem setLanguage_noop_only_for_unsupported_witness :
    (setLanguage c3ExampleState fetchEnvEmpty "zz" =
      (c3ExampleState, [.warnUnsupported "zz"])) ∧
    ((setLanguage c3ExampleState fetchEnvEmpty "en").1.currentLang = "en" ∧
     Effect.persistLang "en" ∈ (setLanguage c3ExampleState fetchEnvEmpty "en").2 ∧
     Effect.applyTranslations ∈ (setLanguage c3ExampleState fetchEnvEmpty "en").2 ∧
     Effect.languageChanged "en" ∈ (setLanguage c3ExampleState fetchEnvEmpty "en").2 ∧
     Effect.fetchCommon "en" ∉ (setLanguage c3ExampleState fetchEnvEmpty "en").2) := by
  refine ⟨(setLanguage_noop_only_for_unsupported c3ExampleState fetchEnvEmpty "zz").1
      (by decide), ?_⟩
  have h := (setLanguage_noop_only_for_unsupported c3ExampleState fetchEnvEmpty "en").2
    (by decide)
  exact ⟨h.1, h.2.1, h.2.2.1, h.2.2.2.1, h.2.2.2.2 (by decide)⟩
